import Mathlib

/-!
# Verification of the content-analysis / transformation-suggestion engine

Shallow embedding of `src/lib/utils/html-parser.ts` from the
`mathblocks-editor` repository: the HTML structure loader, the equation
pattern detector, the problem/solution pattern detector and the suggestion
aggregator, together with proofs of the specification claims about them.

Modelling conventions:
* JavaScript strings are modelled as `List Char` internally and `String`
  at the suggestion boundary; all inputs of interest are ASCII plus the
  superscript-two character, where JS UTF-16 `.length` coincides with the
  character count.
* The regular expressions of the source are translated into explicit
  scanners.  In every regex of the source, adjacent sub-patterns draw from
  disjoint character classes (e.g. `[0-9.]*` followed by `[a-z]`,
  `\s*` followed by `=`), so the greedy left-to-right scan implemented
  here coincides with the backtracking semantics of the JS engine; the one
  pattern with overlapping classes (`[a-z0-9.]+[a-z]`) is treated
  specially (maximal run whose last character is a letter), which is again
  what backtracking yields because the character after the group must be
  an operator or whitespace, both outside the run class.
* JS numbers are modelled exactly for the operations the detectors
  perform: the parsed values are finite decimals, subtraction of finite
  decimals is exact in IEEE double precision for all inputs exercised
  here, and division is modelled as an exact fraction together with the
  IEEE rules for division by zero (`Infinity` / `-Infinity` / `NaN`).
  Rendering of a non-integral quotient uses exact decimal expansion where
  it terminates; only integral and non-finite values are exercised by the
  theorems below.
* Confidence scores (the literals 0.7, 0.8, 0.85, 0.9 of the source) are
  stored in hundredths (70, 80, 85, 90); only their order and equality
  matter to the program.
-/

/-! ## Character classes (JS regex classes, ASCII range) -/

def isAsciiLetter (c : Char) : Bool :=
  (('a' ≤ c) && (c ≤ 'z')) || (('A' ≤ c) && (c ≤ 'Z'))

def isDigitChar (c : Char) : Bool :=
  ('0' ≤ c) && (c ≤ '9')

/-- The class `[0-9.]`. -/
def isDigitDot (c : Char) : Bool :=
  isDigitChar c || (c = '.')

/-- JS `\s` (restricted to the ASCII whitespace characters; no input in
this development contains non-ASCII whitespace). -/
def isSpaceChar (c : Char) : Bool :=
  (c = ' ') || (c = '\t') || (c = '\n') || (c = '\r') ||
  (c = (Char.ofNat 11)) || (c = (Char.ofNat 12))

/-- The class `[+\-]`. -/
def isPlusMinus (c : Char) : Bool :=
  (c = '+') || (c = '-')

/-- The class `[+\-*/]`. -/
def isOp4 (c : Char) : Bool :=
  (c = '+') || (c = '-') || (c = '*') || (c = '/')

/-- The class `[a-z0-9.]` (with the `i` flag). -/
def isRunChar (c : Char) : Bool :=
  isAsciiLetter c || isDigitDot c

/-- The class `[a-z0-9.=+\-*/^()]` (with the `i` flag). -/
def isExprChar (c : Char) : Bool :=
  isAsciiLetter c || isDigitDot c || (c = '=') || (c = '+') || (c = '-') ||
  (c = '*') || (c = '/') || (c = '^') || (c = '(') || (c = ')')

/-- The class `[0-9.a-z+\-*/^()]` (with the `i` flag). -/
def isGeneralRhsChar (c : Char) : Bool :=
  isDigitDot c || isAsciiLetter c || (c = '+') || (c = '-') ||
  (c = '*') || (c = '/') || (c = '^') || (c = '(') || (c = ')')

def toLowerAscii (c : Char) : Char :=
  if ('A' ≤ c) && (c ≤ 'Z') then Char.ofNat (c.toNat + 32) else c

/-! ## String helpers mirroring the JS string methods used -/

/-- JS `String.prototype.trim` (ASCII whitespace). -/
def trimChars (cs : List Char) : List Char :=
  ((cs.dropWhile isSpaceChar).reverse.dropWhile isSpaceChar).reverse

/-- Whether `pat` occurs as a contiguous sublist starting at the head. -/
def startsWithChars (pat cs : List Char) : Bool :=
  List.isPrefixOf pat cs

/-- JS `String.prototype.includes` for a single character. -/
def containsChar (cs : List Char) (c : Char) : Bool :=
  cs.contains c

/-- JS `String.prototype.replace(pat, '')` with a string pattern:
remove the first occurrence of `pat` (if any). -/
def replaceFirst (cs pat : List Char) : List Char :=
  match cs with
  | [] => if pat.isEmpty then [] else []
  | c :: rest =>
    if startsWithChars pat (c :: rest) then (c :: rest).drop pat.length
    else c :: replaceFirst rest pat

/-! ## Regex scanners

`M` is a matcher at a fixed position: it returns the consumed prefix
(`match[0]` relative to that position) and the remainder, or `none`.
`scanFirst` provides the leftmost-match semantics of `String.match`. -/

def M : Type := List Char → Option (List Char × List Char)

def mCls (p : Char → Bool) : M := fun cs =>
  match cs with
  | c :: r => if p c then some ([c], r) else none
  | [] => none

/-- Greedy `p*`.  Exact (no backtracking needed) whenever the following
sub-pattern's first character class is disjoint from `p`, which holds at
every use site below. -/
def mStar (p : Char → Bool) : M := fun cs =>
  some (cs.span p)

/-- Greedy `p+` under the same disjointness condition. -/
def mPlus (p : Char → Bool) : M := fun cs =>
  let t := cs.span p
  if t.1.isEmpty then none else some t

def mLit (c : Char) : M := mCls (· = c)

def mThen (a b : M) : M := fun cs =>
  match a cs with
  | some (x, r) =>
    match b r with
    | some (y, r2) => some (x ++ y, r2)
    | none => none
  | none => none

def mOr (a b : M) : M := fun cs =>
  match a cs with
  | some r => some r
  | none => b cs

def mEmpty : M := fun cs => some ([], cs)

def mSeq (ms : List M) : M := ms.foldr mThen mEmpty

/-- Case-insensitive literal word (the `i` flag on a literal). -/
def mLitCI (s : List Char) : M := fun cs =>
  match s with
  | [] => some ([], cs)
  | c :: s' =>
    match cs with
    | d :: cs' =>
      if toLowerAscii d = toLowerAscii c then
        match mLitCI s' cs' with
        | some (y, r) => some (d :: y, r)
        | none => none
      else none
    | [] => none

/-- Leftmost match: try the matcher at every position, left to right, and
return the first success (`String.prototype.match` for a non-global
regex). -/
def scanFirst {α : Type} (f : List Char → Option α) : List Char → Option α
  | [] => none
  | c :: cs =>
    match f (c :: cs) with
    | some r => some r
    | none => scanFirst f cs

/-- Leftmost `match[0]` of a matcher. -/
def firstMatch0 (m : M) (cs : List Char) : Option (List Char) :=
  scanFirst (fun s => (m s).map (·.1)) cs

/-! ### The equation detector's regexes -/

/-- First alternative of
`/([a-z])\s*=\s*([0-9.]*[a-z])\s*[+\-]\s*([0-9.]+)/i`. -/
def linearAlt1 : M :=
  mSeq [mCls isAsciiLetter, mStar isSpaceChar, mLit '=', mStar isSpaceChar,
        mStar isDigitDot, mCls isAsciiLetter, mStar isSpaceChar,
        mCls isPlusMinus, mStar isSpaceChar, mPlus isDigitDot]

/-- Second alternative,
`/([0-9.]*[a-z])\s*[+\-]\s*([0-9.]+)\s*=\s*([0-9.]+)/i`. -/
def linearAlt2 : M :=
  mSeq [mStar isDigitDot, mCls isAsciiLetter, mStar isSpaceChar,
        mCls isPlusMinus, mStar isSpaceChar, mPlus isDigitDot,
        mStar isSpaceChar, mLit '=', mStar isSpaceChar, mPlus isDigitDot]

/-- `linearEquationPattern` of the source. -/
def linearPattern : M := mOr linearAlt1 linearAlt2

/-- `(\^2|\²)`. -/
def mSup2 : M := mOr (mThen (mLit '^') (mLit '2')) (mLit '²')

/-- First alternative of the quadratic pattern,
`/([a-z])\s*=\s*([a-z])(\^2|\²)\s*[+\-]\s*([0-9.]*[a-z])\s*[+\-]\s*([0-9.]+)/i`. -/
def quadAlt1 : M :=
  mSeq [mCls isAsciiLetter, mStar isSpaceChar, mLit '=', mStar isSpaceChar,
        mCls isAsciiLetter, mSup2, mStar isSpaceChar, mCls isPlusMinus,
        mStar isSpaceChar, mStar isDigitDot, mCls isAsciiLetter,
        mStar isSpaceChar, mCls isPlusMinus, mStar isSpaceChar,
        mPlus isDigitDot]

/-- Second alternative,
`/([a-z])(\^2|\²)\s*[+\-]\s*([0-9.]*[a-z])\s*[+\-]\s*([0-9.]+)\s*=\s*([0-9.]+)/i`. -/
def quadAlt2 : M :=
  mSeq [mCls isAsciiLetter, mSup2, mStar isSpaceChar, mCls isPlusMinus,
        mStar isSpaceChar, mStar isDigitDot, mCls isAsciiLetter,
        mStar isSpaceChar, mCls isPlusMinus, mStar isSpaceChar,
        mPlus isDigitDot, mStar isSpaceChar, mLit '=', mStar isSpaceChar,
        mPlus isDigitDot]

/-- `quadraticPattern` of the source. -/
def quadraticPattern : M := mOr quadAlt1 quadAlt2

/-- `mathPattern` of the source, `/([a-z])\s*=\s*([0-9.a-z+\-*/^()]+)/i`. -/
def mathPattern : M :=
  mSeq [mCls isAsciiLetter, mStar isSpaceChar, mLit '=', mStar isSpaceChar,
        mPlus isGeneralRhsChar]

/-! ### The variable-extraction regexes -/

/-- Group 1 of `/([a-z])\s*=/i` at a fixed position. -/
def letterEqAt : List Char → Option Char
  | c :: r =>
    if isAsciiLetter c then
      match (mThen (mStar isSpaceChar) (mLit '=')) r with
      | some _ => some c
      | none => none
    else none
  | [] => none

/-- Group 1 of `/([a-z])\s*=/i` (leftmost). -/
def letterEqGroup (cs : List Char) : Option Char :=
  scanFirst letterEqAt cs

/-- Group 1 of `/([0-9.]*[a-z])/i` at a fixed position. -/
def digitsLetterAt (cs : List Char) : Option (List Char) :=
  let t := cs.span isDigitDot
  match t.2 with
  | c :: _ => if isAsciiLetter c then some (t.1 ++ [c]) else none
  | [] => none

/-- Group 1 of `/([0-9.]*[a-z])/i` (leftmost). -/
def digitsLetterGroup (cs : List Char) : Option (List Char) :=
  scanFirst digitsLetterAt cs

/-- Group 1 of `/([a-z])(\^2|\²)/i` at a fixed position. -/
def quadVarAt : List Char → Option Char
  | c :: r =>
    if isAsciiLetter c then
      match mSup2 r with
      | some _ => some c
      | none => none
    else none
  | [] => none

/-- Group 1 of `/([a-z])(\^2|\²)/i` (leftmost). -/
def quadVarGroup (cs : List Char) : Option Char :=
  scanFirst quadVarAt cs

/-! ### The problem detector's regexes -/

/-- `/solve\s+for\s+([a-z])\s*:\s*(.*?)/i`.  The trailing lazy `(.*?)`
always matches the empty string, so it contributes nothing to
`match[0]`. -/
def problemPat1 : M :=
  mSeq [mLitCI ['s','o','l','v','e'], mPlus isSpaceChar,
        mLitCI ['f','o','r'], mPlus isSpaceChar, mCls isAsciiLetter,
        mStar isSpaceChar, mLit ':', mStar isSpaceChar]

/-- `/find\s+the\s+value\s+of\s+([a-z])\s+/i`. -/
def problemPat2 : M :=
  mSeq [mLitCI ['f','i','n','d'], mPlus isSpaceChar,
        mLitCI ['t','h','e'], mPlus isSpaceChar,
        mLitCI ['v','a','l','u','e'], mPlus isSpaceChar,
        mLitCI ['o','f'], mPlus isSpaceChar, mCls isAsciiLetter,
        mPlus isSpaceChar]

/-- `/calculate\s+the\s+([a-z])\s+/i`. -/
def problemPat3 : M :=
  mSeq [mLitCI ['c','a','l','c','u','l','a','t','e'], mPlus isSpaceChar,
        mLitCI ['t','h','e'], mPlus isSpaceChar, mCls isAsciiLetter,
        mPlus isSpaceChar]

/-- `/determine\s+([a-z])\s+/i`. -/
def problemPat4 : M :=
  mSeq [mLitCI ['d','e','t','e','r','m','i','n','e'], mPlus isSpaceChar,
        mCls isAsciiLetter, mPlus isSpaceChar]

/-- `/([a-z0-9.]+[a-z])\s*[+\-*/]\s*([0-9.]+)\s*=\s*([0-9.]+)/i` at a
fixed position.  The group `[a-z0-9.]+[a-z]` must cover the whole maximal
`[a-z0-9.]` run starting here (anything shorter would put a run character
where the operator or whitespace is required), so it matches exactly when
that run has length at least two and ends in a letter. -/
def problemPat5At (cs : List Char) : Option (List Char × List Char) :=
  let t := cs.span isRunChar
  match t.1.getLast? with
  | some lastc =>
    if isAsciiLetter lastc && decide (2 ≤ t.1.length) then
      match (mSeq [mStar isSpaceChar, mCls isOp4, mStar isSpaceChar,
                   mPlus isDigitDot, mStar isSpaceChar, mLit '=',
                   mStar isSpaceChar, mPlus isDigitDot]) t.2 with
      | some (y, r) => some (t.1 ++ y, r)
      | none => none
    else none
  | none => none

def problemPat5 : M := problemPat5At

/-- `problemPatterns` of the source, in order. -/
def problemPatterns : List M :=
  [problemPat1, problemPat2, problemPat3, problemPat4, problemPat5]

/-- The problem-recognition loop: try each pattern in order with
`text.match(pattern)`; return `match[0]` of the first that matches. -/
def firstProblemMatch (cs : List Char) : Option (List Char) :=
  problemPatterns.findSome? (fun m => firstMatch0 m cs)

/-! ### Regexes of the synthesized-steps path -/

/-- Group 1 of `/([a-z])/i` (leftmost letter). -/
def firstLetterGroup (cs : List Char) : Option Char :=
  cs.find? isAsciiLetter

/-- Group 1 of `/([0-9.]*)[a-z]/i` at a fixed position. -/
def coefAt (cs : List Char) : Option (List Char) :=
  let t := cs.span isDigitDot
  match t.2 with
  | c :: _ => if isAsciiLetter c then some t.1 else none
  | [] => none

/-- Group 1 of `/([0-9.]*)[a-z]/i` (leftmost). -/
def coefGroup (cs : List Char) : Option (List Char) :=
  scanFirst coefAt cs

/-- Group 1 of `/[a-z]\s*[+\-]\s*([0-9.]+)/i` at a fixed position. -/
def constAt : List Char → Option (List Char)
  | c :: r =>
    if isAsciiLetter c then
      match (mSeq [mStar isSpaceChar, mCls isPlusMinus,
                   mStar isSpaceChar]) r with
      | some (_, rest) =>
        let t := rest.span isDigitDot
        if t.1.isEmpty then none else some t.1
      | none => none
    else none
  | [] => none

/-- Group 1 of `/[a-z]\s*[+\-]\s*([0-9.]+)/i` (leftmost). -/
def constGroup (cs : List Char) : Option (List Char) :=
  scanFirst constAt cs

/-- Group 1 of `/=\s*([0-9.]+)/i` at a fixed position. -/
def rhsAt : List Char → Option (List Char)
  | c :: r =>
    if c = '=' then
      let rest := r.dropWhile isSpaceChar
      let t := rest.span isDigitDot
      if t.1.isEmpty then none else some t.1
    else none
  | [] => none

/-- Group 1 of `/=\s*([0-9.]+)/i` (leftmost). -/
def rhsGroup (cs : List Char) : Option (List Char) :=
  scanFirst rhsAt cs

/-- The step-expression regex `/([a-z0-9.=+\-*/^()]+)/i` (leftmost
maximal run). -/
def stepExprMatch (cs : List Char) : Option (List Char) :=
  firstMatch0 (mPlus isExprChar) cs

/-! ## JS numbers

Only the values and operations actually exercised by the detectors are
modelled: finite decimals (kept as exact fractions with positive
denominator), `Infinity`, `-Infinity` and `NaN`, with IEEE rules for
division by zero.  For all finite values exercised by the theorems below
the exact fraction agrees with the IEEE double of the source. -/

inductive JsNum where
  | fin (num den : Int)
  | inf
  | negInf
  | nan
deriving DecidableEq

/-- Subtraction.  Both operands produced by the source at this point are
finite or `NaN`; any `NaN` operand propagates. -/
def jsSub : JsNum → JsNum → JsNum
  | .fin a b, .fin c d => .fin (a * d - c * b) (b * d)
  | _, _ => .nan

/-- Division, with the IEEE rules for a zero divisor: `x / 0` is `NaN`
when `x = 0`, `Infinity` when `x > 0`, `-Infinity` when `x < 0`.  A `NaN`
operand propagates; non-finite dividends do not arise in the source
path. -/
def jsDiv : JsNum → JsNum → JsNum
  | .fin a b, .fin c d =>
    if c = 0 then
      (if a = 0 then .nan else if 0 < a then .inf else .negInf)
    else
      let n := a * d
      let m := b * c
      if m < 0 then .fin (-n) (-m) else .fin n m
  | _, _ => .nan

def digitsToNat (cs : List Char) : Nat :=
  cs.foldl (fun acc c => acc * 10 + (c.toNat - '0'.toNat)) 0

/-- `parseFloat` restricted to strings over the alphabet `[0-9.]`, which
is the only shape the detectors ever pass to it: longest prefix of the
form `digits* ('.' digits*)?`; `NaN` when that prefix holds no digit. -/
def parseFloatDD (cs : List Char) : JsNum :=
  let t := cs.span isDigitChar
  match t.2 with
  | '.' :: r2 =>
    let f := r2.takeWhile isDigitChar
    if t.1.isEmpty && f.isEmpty then .nan
    else .fin (Int.ofNat (digitsToNat t.1 * 10 ^ f.length + digitsToNat f))
              (Int.ofNat (10 ^ f.length))
  | _ => if t.1.isEmpty then .nan else .fin (Int.ofNat (digitsToNat t.1)) 1

/-- Decimal digits of the fractional part `r / b`, by long division,
up to `fuel` digits (JS prints at most 17 significant digits; no theorem
below exercises a non-terminating expansion). -/
def fracDigits (fuel : Nat) (r b : Nat) : List Char :=
  match fuel with
  | 0 => []
  | fuel' + 1 =>
    if r = 0 then []
    else
      let r10 := r * 10
      (toString (r10 / b)).data ++ fracDigits fuel' (r10 % b) b

/-- Number-to-string conversion as performed by JS template literals:
integers print without a decimal point, non-finite values print as
`Infinity` / `-Infinity` / `NaN`. -/
def jsNumToString : JsNum → List Char
  | .nan => "NaN".data
  | .inf => "Infinity".data
  | .negInf => "-Infinity".data
  | .fin a b =>
    if b = 0 then "NaN".data
    else if a % b = 0 then (toString (a / b)).data
    else
      let an := a.natAbs
      let bn := b.natAbs
      (if a < 0 then ['-'] else []) ++ (toString (an / bn)).data ++
        ['.'] ++ fracDigits 17 (an % bn) bn

/-! ## The element tree

`HNode` models the subtree of the parsed document below `body`:
elements carry a (lowercased) tag name, their attributes in source order
and their child nodes; text nodes carry raw character data.  Element
references are modelled as paths (child-index lists) from the `body`
root, which makes two suggestions that reference the same element
equal exactly when the JS records are deep-equal. -/

inductive HNode where
  | elt (tag : String) (attrs : List (String × String)) (children : List HNode)
  | txt (s : List Char)

/-! `Node.textContent`: concatenation of all descendant text, in document
order, with no normalization. -/
mutual
def textContent : HNode → List Char
  | .txt s => s
  | .elt _ _ cs => textContentList cs
def textContentList : List HNode → List Char
  | [] => []
  | n :: ns => textContent n ++ textContentList ns
end

def nodeTag : HNode → String
  | .elt t _ _ => t
  | .txt _ => ""

def nodeChildren : HNode → List HNode
  | .elt _ _ cs => cs
  | .txt _ => []

def isEltNode : HNode → Bool
  | .elt _ _ _ => true
  | .txt _ => false

def getAttr (n : HNode) (name : String) : Option String :=
  match n with
  | .elt _ attrs _ => (attrs.find? (fun a => a.1 = name)).map (·.2)
  | .txt _ => none

/-- Space-separated class-token test (CSS class selector). -/
def hasClassToken (n : HNode) (cls : String) : Bool :=
  match getAttr n "class" with
  | some v => ((v.data.splitOn ' ').map String.mk).contains cls
  | none => false

/-- `Element.id` (empty string when absent). -/
def nodeId (n : HNode) : String :=
  (getAttr n "id").getD ""

/-- Look up the node at a path below the given root. -/
def nodeAtPath (root : HNode) (p : List Nat) : Option HNode :=
  match p with
  | [] => some root
  | i :: p' =>
    match (nodeChildren root).get? i with
    | some c => nodeAtPath c p'
    | none => none

/-! Paths (relative to the whole document) of all element descendants of
the node sitting at `pre`, in document (preorder) order. -/
mutual
def elemPathsOf : HNode → List Nat → List (List Nat)
  | .txt _, _ => []
  | .elt _ _ cs, pre => elemPathsList cs pre 0
def elemPathsList : List HNode → List Nat → Nat → List (List Nat)
  | [], _, _ => []
  | n :: ns, pre, i =>
    (match n with
     | .elt _ _ _ => (pre ++ [i]) :: elemPathsOf n (pre ++ [i])
     | .txt _ => []) ++ elemPathsList ns pre (i + 1)
end

/-- All element paths of the document, in document order. -/
def allElemPaths (root : HNode) : List (List Nat) :=
  elemPathsOf root []

def tagAtPath (root : HNode) (p : List Nat) : String :=
  match nodeAtPath root p with
  | some n => nodeTag n
  | none => ""

def textAtPath (root : HNode) (p : List Nat) : List Char :=
  match nodeAtPath root p with
  | some n => textContent n
  | none => []

/-- The element (if any) immediately preceding the node at `p` among its
parent's element children (the CSS adjacent-sibling relation `E + F`
ignores text nodes). -/
def prevElemSibling (root : HNode) (p : List Nat) : Option HNode :=
  match p.getLast? with
  | none => none
  | some i =>
    match nodeAtPath root p.dropLast with
    | some parent =>
      (((nodeChildren parent).take i).filter isEltNode).getLast?
    | none => none

/-- The element children of the parent that follow the node at `p`, with
their paths, in order (`nextElementSibling` chain). -/
def followingElemSiblings (root : HNode) (p : List Nat) :
    List (List Nat × HNode) :=
  match p.getLast? with
  | none => []
  | some i =>
    match nodeAtPath root p.dropLast with
    | some parent =>
      (((nodeChildren parent).enum).filter
          (fun x => decide (i < x.1) && isEltNode x.2)).map
        (fun x => (p.dropLast ++ [x.1], x.2))
    | none => []

/-! Whether the subtree below `n` contains an element with the given tag
(the `:has(strong)` test). -/
mutual
def subtreeHasTag : HNode → String → Bool
  | .txt _, _ => false
  | .elt _ _ cs, t => subtreeHasTagList cs t
def subtreeHasTagList : List HNode → String → Bool
  | [], _ => false
  | n :: ns, t =>
    (match n with
     | .elt tg _ _ => tg = t || subtreeHasTag n t
     | .txt _ => false) || subtreeHasTagList ns t
end

/-- Whether the first element child of `cs` is a `p`. -/
def firstEltChildIsP (cs : List HNode) : Bool :=
  match cs.find? isEltNode with
  | some n => nodeTag n = "p"
  | none => false

/-! The `div:has(p:first-child)` test relative to a `div`: some
descendant `p` is the first element child of its parent (the parent
being the `div` itself or a descendant). -/
mutual
def hasPFirstChild : HNode → Bool
  | .txt _ => false
  | .elt _ _ cs => firstEltChildIsP cs || hasPFirstChildList cs
def hasPFirstChildList : List HNode → Bool
  | [] => false
  | n :: ns => hasPFirstChild n || hasPFirstChildList ns
end

/-! ## HTML structure loader

Modelled from the spec: the source's `parseHtmlContent` delegates to the
browser's `DOMParser`, a platform API whose code is not part of the
repository.  Following spec section 4.1, the loader below turns an HTML
string into a navigable element tree, never fails on arbitrary text
(stray `<`, unclosed tags and unmatched closing tags are tolerated:
unclosed elements are closed at the end of input, unmatched closing tags
are ignored, anything that is not a well-formed tag is text), executes
nothing and fetches nothing.  Tag and attribute names are lowercased as
the HTML parser does.  Entity decoding and the implicit
`html`/`head`/`body` scaffolding are not modelled; the element produced
by `parseDocument` plays the role of `body`, which is where `DOMParser`
places the content of the fragment-like inputs considered here. -/

inductive HTok where
  | tText (s : List Char)
  | tOpen (tag : String) (attrs : List (String × String)) (selfClose : Bool)
  | tClose (tag : String)

/-- Lex one attribute list, up to and including the closing `>`.
Returns the attributes, whether the tag was self-closing, and the rest
of the input.  Fuel decreases by one per step while every step consumes
at least one character, so a fuel of the input length never runs out. -/
def lexAttrs : Nat → List Char → (List (String × String) × Bool × List Char)
  | 0, cs => ([], false, cs)
  | fuel + 1, cs =>
    match cs with
    | [] => ([], false, [])
    | '>' :: r => ([], false, r)
    | '/' :: '>' :: r => ([], true, r)
    | c :: r =>
      if isSpaceChar c then lexAttrs fuel r
      else
        let nt := (c :: r).span
          (fun d => !(isSpaceChar d) && d ≠ '=' && d ≠ '>' && d ≠ '/')
        let name := String.mk (nt.1.map toLowerAscii)
        match nt.2 with
        | '=' :: '"' :: r2 =>
          let vt := r2.span (fun d => d ≠ '"')
          let rest := vt.2.drop 1
          let res := lexAttrs fuel rest
          ((name, String.mk vt.1) :: res.1, res.2.1, res.2.2)
        | '=' :: '\'' :: r2 =>
          let vt := r2.span (fun d => d ≠ '\'')
          let rest := vt.2.drop 1
          let res := lexAttrs fuel rest
          ((name, String.mk vt.1) :: res.1, res.2.1, res.2.2)
        | '=' :: r2 =>
          let vt := r2.span (fun d => !(isSpaceChar d) && d ≠ '>')
          let res := lexAttrs fuel vt.2
          ((name, String.mk vt.1) :: res.1, res.2.1, res.2.2)
        | rest =>
          let res := lexAttrs fuel rest
          ((name, "") :: res.1, res.2.1, res.2.2)

/-- Tokenize an HTML string (same fuel discipline). -/
def lexHtml : Nat → List Char → List HTok
  | 0, _ => []
  | fuel + 1, cs =>
    match cs with
    | [] => []
    | '<' :: '/' :: r =>
      let nt := r.span (fun d => d ≠ '>')
      let name := String.mk ((nt.1.takeWhile
        (fun d => !(isSpaceChar d))).map toLowerAscii)
      HTok.tClose name :: lexHtml fuel (nt.2.drop 1)
    | '<' :: c :: r =>
      if isAsciiLetter c then
        let nt := (c :: r).span
          (fun d => isAsciiLetter d || isDigitChar d)
        let name := String.mk (nt.1.map toLowerAscii)
        let ares := lexAttrs fuel nt.2
        HTok.tOpen name ares.1 ares.2.1 :: lexHtml fuel ares.2.2
      else
        let tt := (c :: r).span (fun d => d ≠ '<')
        HTok.tText ('<' :: tt.1) :: lexHtml fuel tt.2
    | c :: r =>
      let tt := (c :: r).span (fun d => d ≠ '<')
      HTok.tText tt.1 :: lexHtml fuel tt.2

/-- One stack frame: an open element with its children accumulated so
far (in order). -/
def Frame : Type := String × List (String × String) × List HNode

def frameClose (f : Frame) : HNode :=
  HNode.elt f.1 f.2.1 f.2.2

/-- Add a finished node to the innermost open element (or to the
top-level list when no element is open). -/
def stackAdd (n : HNode) :
    List Frame → List HNode → (List Frame × List HNode)
  | f :: fs, top => ((f.1, f.2.1, f.2.2 ++ [n]) :: fs, top)
  | [], top => ([], top ++ [n])

/-- Close the innermost open element. -/
def stackPop : List Frame → List HNode → (List Frame × List HNode)
  | f :: fs, top => stackAdd (frameClose f) fs top
  | [], top => ([], top)

theorem stackAdd_fst_length (n : HNode) (fs : List Frame)
    (top : List HNode) : (stackAdd n fs top).1.length = fs.length := by
  cases fs <;> rfl

/-- Pop open elements until one with the given tag has been closed
(the matching-close recovery of the HTML parser).  The stack shrinks by
one frame per step, so a fuel of the stack depth never runs out. -/
def stackPopUntil (fuel : Nat) (t : String) (fs : List Frame)
    (top : List HNode) : (List Frame × List HNode) :=
  match fuel, fs with
  | _, [] => ([], top)
  | 0, fs => (fs, top)
  | fuel + 1, f :: fs =>
    if f.1 = t then stackAdd (frameClose f) fs top
    else
      stackPopUntil fuel t (stackAdd (frameClose f) fs top).1
        (stackAdd (frameClose f) fs top).2

/-- Close every still-open element (end of input), same fuel
discipline. -/
def closeFrames (fuel : Nat) (fs : List Frame) (top : List HNode) :
    List HNode :=
  match fuel, fs with
  | _, [] => top
  | 0, _ => top
  | fuel + 1, f :: fs =>
    closeFrames fuel (stackAdd (frameClose f) fs top).1
      (stackAdd (frameClose f) fs top).2

def stackHasTag (t : String) (fs : List Frame) : Bool :=
  fs.any (fun f => f.1 = t)

/-- Build the node list from the token stream with an open-element
stack; at end of input every still-open element is closed. -/
def buildNodes : List HTok → List Frame → List HNode → List HNode
  | [], fs, top => closeFrames fs.length fs top
  | HTok.tText s :: ts, fs, top =>
    buildNodes ts (stackAdd (HNode.txt s) fs top).1
      (stackAdd (HNode.txt s) fs top).2
  | HTok.tOpen t attrs sc :: ts, fs, top =>
    if sc then
      buildNodes ts (stackAdd (HNode.elt t attrs []) fs top).1
        (stackAdd (HNode.elt t attrs []) fs top).2
    else buildNodes ts ((t, attrs, []) :: fs) top
  | HTok.tClose t :: ts, fs, top =>
    if stackHasTag t fs then
      buildNodes ts (stackPopUntil fs.length t fs top).1
        (stackPopUntil fs.length t fs top).2
    else buildNodes ts fs top

/-- Modelled from the spec: the source's `parseHtmlContent` returns
`new DOMParser().parseFromString(htmlContent, 'text/html')`, and the
`DOMParser` platform API is the part missing from the repository; spec
section 4.1 specifies an error-tolerant, structural-only parse that
never throws.  The returned element stands for the document `body`, on
which all queries of the detectors run. -/
def parseHtmlContent (htmlContent : String) : HNode :=
  HNode.elt "body" []
    (buildNodes (lexHtml (htmlContent.data.length + 1) htmlContent.data) [] [])

/-! ## Transformation suggestions -/

/-- One step of a problem-solver suggestion.  Both producing paths of the
source set all three fields to strings. -/
structure SolutionStep where
  description : String
  expression : String
  explanation : String
deriving DecidableEq

/-- A JSON-compatible parameter value (`Record<string, unknown>`
entries). -/
inductive PValue where
  | str (s : String)
  | bool (b : Bool)
  | int (n : Int)
  | intList (l : List Int)
  | strList (l : List String)
  | objIntList (key : String) (l : List Int)
  | objInt (key : String) (v : Int)
  | stepList (l : List SolutionStep)
deriving DecidableEq

/-- `TransformationSuggestion` of the source.  `sourceElements` holds
element references, modelled as document paths; `confidence` is in
hundredths. -/
structure TransformationSuggestion where
  type : String
  sourceElements : List (List Nat)
  description : String
  confidence : Nat
  blockParameters : List (String × PValue)
deriving DecidableEq

/-! ## Selector queries used by the detectors -/

def nodeAtPathD (root : HNode) (p : List Nat) : HNode :=
  (nodeAtPath root p).getD (HNode.txt [])

/-- `doc.querySelectorAll(tag)`. -/
def qsaTag (root : HNode) (t : String) : List (List Nat) :=
  (allElemPaths root).filter (fun p => tagAtPath root p = t)

/-- `doc.querySelectorAll('hN + p')`. -/
def qsaAdjP (root : HNode) (h : String) : List (List Nat) :=
  (allElemPaths root).filter (fun p =>
    tagAtPath root p = "p" &&
      (match prevElemSibling root p with
       | some n => nodeTag n = h
       | none => false))

/-- `doc.querySelectorAll('.cls')`. -/
def qsaClass (root : HNode) (cls : String) : List (List Nat) :=
  (allElemPaths root).filter (fun p => hasClassToken (nodeAtPathD root p) cls)

/-- `doc.querySelectorAll('[data-type="problem"]')`. -/
def qsaDataTypeProblem (root : HNode) : List (List Nat) :=
  (allElemPaths root).filter (fun p =>
    getAttr (nodeAtPathD root p) "data-type" = some "problem")

/-- `doc.querySelectorAll('p:has(strong)')`. -/
def qsaPHasStrong (root : HNode) : List (List Nat) :=
  (allElemPaths root).filter (fun p =>
    tagAtPath root p = "p" && subtreeHasTag (nodeAtPathD root p) "strong")

/-- `doc.querySelectorAll('div:has(p:first-child)')`. -/
def qsaDivPFirstChild (root : HNode) : List (List Nat) :=
  (allElemPaths root).filter (fun p =>
    tagAtPath root p = "div" && hasPFirstChild (nodeAtPathD root p))

/-- The path itself followed by its ancestors, nearest first, ending in
the root `[]` (the walk of `Element.closest`).  The path shrinks by one
entry per step, so a fuel of its length never runs out. -/
def selfAndAncestorsF (fuel : Nat) (p : List Nat) : List (List Nat) :=
  match fuel, p with
  | _, [] => [[]]
  | 0, p => [p]
  | fuel + 1, i :: p' => (i :: p') :: selfAndAncestorsF fuel (i :: p').dropLast

def selfAndAncestors (p : List Nat) : List (List Nat) :=
  selfAndAncestorsF p.length p

/-- `element.closest('.problem-container')`. -/
def closestProblemContainer (root : HNode) (p : List Nat) :
    Option (List Nat) :=
  (selfAndAncestors p).find? (fun q =>
    hasClassToken (nodeAtPathD root q) "problem-container")

/-- `container.querySelector('.solution')` (first matching descendant in
document order). -/
def querySolutionIn (root : HNode) (cpath : List Nat) : Option (List Nat) :=
  ((elemPathsOf (nodeAtPathD root cpath) cpath).filter (fun q =>
    hasClassToken (nodeAtPathD root q) "solution")).head?

/-- `doc.querySelector('#' ++ idv)`. -/
def queryIdGlobal (root : HNode) (idv : String) : Option (List Nat) :=
  ((allElemPaths root).filter (fun q =>
    nodeId (nodeAtPathD root q) = idv)).head?

/-! ## The equation pattern detector -/

/-- `text.match(pattern)?.[0] || text` (the empty string is falsy). -/
def matchZeroOrText (m : Option (List Char)) (text : List Char) :
    List Char :=
  match m with
  | some s => if s.isEmpty then text else s
  | none => text

/-- Variable extraction of the linear branch:
`match(/([a-z])\s*=/i) || match(/([0-9.]*[a-z])/i)`, then the first
letter of group 1, lowercased; fallback `'x'`. -/
def extractVarLinear (equationText : List Char) : Char :=
  let g : Option (List Char) :=
    match letterEqGroup equationText with
    | some c => some [c]
    | none => digitsLetterGroup equationText
  match g with
  | some g1 =>
    if g1.isEmpty then 'x'
    else
      match g1.find? isAsciiLetter with
      | some c => toLowerAscii c
      | none => 'x'
  | none => 'x'

/-- Variable extraction of the quadratic branch:
`match(/([a-z])\s*=/i) || match(/([a-z])(\^2|\²)/i)`, group 1
lowercased; fallback `'x'`. -/
def extractVarQuad (equationText : List Char) : Char :=
  match letterEqGroup equationText with
  | some c => toLowerAscii c
  | none =>
    match quadVarGroup equationText with
    | some c => toLowerAscii c
    | none => 'x'

/-- Variable extraction of the general branch:
`match(/([a-z])\s*=/i)`, group 1 lowercased; fallback `'x'`. -/
def extractVarGeneral (equationText : List Char) : Char :=
  match letterEqGroup equationText with
  | some c => toLowerAscii c
  | none => 'x'

/-- The suggestion record pushed by the equation detector. -/
def mkEquationSuggestion (p : List Nat) (descr : String) (conf : Nat)
    (equationText : List Char) (v : Char) : TransformationSuggestion :=
  { type := "equationExplorer"
    sourceElements := [p]
    description := descr
    confidence := conf
    blockParameters :=
      [("equation", .str (String.mk (trimChars equationText))),
       ("variables", .strList [String.mk [v]]),
       ("range", .objIntList (String.mk [v]) [-10, 10]),
       ("initialValues", .objInt (String.mk [v]) 0),
       ("showGraph", .bool true),
       ("showFormula", .bool true)] }

/-- The loop body of `detectEquationPatterns` for one candidate element:
skip short text, then try the linear, quadratic and general patterns in
that order, first match wins. -/
def equationSuggestionFor (root : HNode) (p : List Nat) :
    Option TransformationSuggestion :=
  let text := textAtPath root p
  if text.length < 3 then none
  else
    match firstMatch0 linearPattern text with
    | some m0 =>
      let equationText := matchZeroOrText (some m0) text
      some (mkEquationSuggestion p "Interactive Linear Equation Explorer" 85
        equationText (extractVarLinear equationText))
    | none =>
      match firstMatch0 quadraticPattern text with
      | some m0 =>
        let equationText := matchZeroOrText (some m0) text
        some (mkEquationSuggestion p
          "Interactive Quadratic Function Explorer" 90
          equationText (extractVarQuad equationText))
      | none =>
        match firstMatch0 mathPattern text with
        | some m0 =>
          let equationText := matchZeroOrText (some m0) text
          some (mkEquationSuggestion p "Interactive Function Explorer" 70
            equationText (extractVarGeneral equationText))
        | none => none

/-- Candidate pool of `detectEquationPatterns`: all `p`, `div`, `span`,
`li` elements, pools concatenated in that order. -/
def eqCandidatePool (root : HNode) : List (List Nat) :=
  qsaTag root "p" ++ qsaTag root "div" ++ qsaTag root "span" ++
    qsaTag root "li"

/-- `detectEquationPatterns` of the source: pushes one suggestion per
matching candidate onto the given accumulator. -/
def detectEquationPatterns (root : HNode)
    (suggestions : List TransformationSuggestion) :
    List TransformationSuggestion :=
  suggestions ++ (eqCandidatePool root).filterMap (equationSuggestionFor root)

/-! ## The problem / solution pattern detector -/

/-- `findNextSibling` of the source: first following sibling element with
the given tag. -/
def findNextSibling (root : HNode) (p : List Nat) (tagName : String) :
    Option (List Nat × HNode) :=
  (followingElemSiblings root p).find? (fun x => nodeTag x.2 = tagName)

def elemChildCount (n : HNode) : Nat :=
  ((nodeChildren n).filter isEltNode).length

/-- `findFollowingSteps` of the source: the next `ol` sibling, else the
next `ul` sibling, else the next `div` sibling when it has more than one
element child, else nothing. -/
def findFollowingSteps (root : HNode) (p : List Nat) : Option (List Nat) :=
  match findNextSibling root p "ol" with
  | some x => some x.1
  | none =>
    match findNextSibling root p "ul" with
    | some x => some x.1
    | none =>
      match findNextSibling root p "div" with
      | some x => if 1 < elemChildCount x.2 then some x.1 else none
      | none => none

/-- The solution-container chain of the source:
`element.closest('.problem-container')?.querySelector('.solution') ||
doc.querySelector('#solution-' + element.id) || findFollowingSteps(el)`. -/
def solutionContainerFor (root : HNode) (p : List Nat) : Option (List Nat) :=
  (match closestProblemContainer root p with
   | some c => querySolutionIn root c
   | none => none) <|>
  queryIdGlobal root ("solution-" ++ nodeId (nodeAtPathD root p)) <|>
  findFollowingSteps root p

/-- `solutionContainer.querySelectorAll('li, p, div.step')` in document
order. -/
def stepElemPaths (root : HNode) (cpath : List Nat) : List (List Nat) :=
  (elemPathsOf (nodeAtPathD root cpath) cpath).filter (fun q =>
    let n := nodeAtPathD root q
    nodeTag n = "li" || nodeTag n = "p" ||
      (nodeTag n = "div" && hasClassToken n "step"))

/-- One extracted step: `expression` is the first algebraic-looking run
of the step text (else `Step N`), `explanation` the text with the first
occurrence of `expression` removed and trimmed. -/
def stepFromText (idx : Nat) (stepText : List Char) : SolutionStep :=
  let expression :=
    match stepExprMatch stepText with
    | some e => e
    | none => ("Step " ++ toString (idx + 1)).data
  { description := "Step " ++ toString (idx + 1)
    expression := String.mk expression
    explanation := String.mk (trimChars (replaceFirst stepText expression)) }

/-- `group || 'd'` for an optional capture group (empty groups are
falsy). -/
def jsOrStr (g : Option (List Char)) (d : String) : List Char :=
  match g with
  | some s => if s.isEmpty then d.data else s
  | none => d.data

/-- The synthesized-steps path for a linear equation
`coeff·var ± const = const2`: parse the pieces, isolate the variable
term, divide by the coefficient (no zero guard), and render two steps
with the computed values substituted. -/
def synthesizeSteps (equation : List Char) : List SolutionStep :=
  let varStr :=
    match firstLetterGroup equation with
    | some c => [c]
    | none => ['x']
  let coefficient := parseFloatDD (jsOrStr (coefGroup equation) "1")
  let constant := parseFloatDD (jsOrStr (constGroup equation) "0")
  let rightSide := parseFloatDD (jsOrStr (rhsGroup equation) "0")
  let isolatedVariable := jsSub rightSide constant
  let solution := jsDiv isolatedVariable coefficient
  [{ description := "Isolate the variable term"
     expression := String.mk (jsNumToString coefficient ++ varStr ++
       " = ".data ++ jsNumToString (jsSub rightSide constant))
     explanation := String.mk
       ("Move constant to the right side by subtracting ".data ++
        jsNumToString constant ++ " from both sides.".data) },
   { description := "Solve for the variable"
     expression := String.mk (varStr ++ " = ".data ++
       jsNumToString solution)
     explanation := String.mk
       ("Divide both sides by the coefficient ".data ++
        jsNumToString coefficient ++ " to find the value of ".data ++
        varStr ++ ".".data) }]

/-- The step list produced for one problem candidate: steps from a
located solution container, else the synthesized algebraic steps when
the matched problem text contains `=` and has the linear shape, else
none. -/
def stepsForProblem (root : HNode) (p : List Nat) (m0 : List Char) :
    List SolutionStep :=
  match solutionContainerFor root p with
  | some cpath =>
    (stepElemPaths root cpath).enum.map
      (fun x => stepFromText x.1 (textAtPath root x.2))
  | none =>
    if containsChar m0 '=' then
      if (firstMatch0 linearAlt2 m0).isSome then synthesizeSteps m0 else []
    else []

/-- Candidate pool of `detectProblemSolverPatterns`: the seven selector
queries concatenated.  A single element can occur several times. -/
def probCandidatePool (root : HNode) : List (List Nat) :=
  qsaAdjP root "h2" ++ qsaAdjP root "h3" ++ qsaAdjP root "h4" ++
    qsaClass root "problem" ++ qsaDataTypeProblem root ++
    qsaPHasStrong root ++ qsaDivPFirstChild root

/-- The loop body of `detectProblemSolverPatterns` for one candidate:
skip short text, require a problem cue-pattern match, collect steps, and
emit a suggestion only when at least one step was produced. -/
def problemSuggestionFor (root : HNode) (p : List Nat) :
    Option TransformationSuggestion :=
  let text := textAtPath root p
  if text.length < 10 then none
  else
    match firstProblemMatch text with
    | none => none
    | some m0 =>
      let steps := stepsForProblem root p m0
      if 0 < steps.length then
        some { type := "problem-solver"
               sourceElements := [p]
               description := "Interactive Problem Solver"
               confidence := 80
               blockParameters :=
                 [("problem", .str (String.mk (trimChars text))),
                  ("steps", .stepList steps),
                  ("showHints", .bool true),
                  ("progressiveReveal", .bool true),
                  ("requireUserInput", .bool false),
                  ("feedbackLevel", .str "detailed"),
                  ("solutionVisible", .str "after-attempt")] }
      else none

/-- `detectProblemSolverPatterns` of the source. -/
def detectProblemSolverPatterns (root : HNode)
    (suggestions : List TransformationSuggestion) :
    List TransformationSuggestion :=
  suggestions ++
    (probCandidatePool root).filterMap (problemSuggestionFor root)

/-! ## The suggestion aggregator -/

/-- The sort order of `suggestions.sort((a, b) => b.confidence -
a.confidence)`: confidence descending. -/
def byConfidenceDesc (a b : TransformationSuggestion) : Prop :=
  b.confidence ≤ a.confidence

instance : DecidableRel byConfidenceDesc := fun a b =>
  Nat.decLe b.confidence a.confidence

instance : IsTotal TransformationSuggestion byConfidenceDesc :=
  ⟨fun a b => Nat.le_total b.confidence a.confidence⟩

instance : IsTrans TransformationSuggestion byConfidenceDesc :=
  ⟨fun _ _ _ hab hbc => Nat.le_trans hbc hab⟩

/-- JS `Array.prototype.sort` is stable (ES2019), so with the comparator
above it computes the stable descending sort, which is what insertion
sort with `byConfidenceDesc` computes. -/
def sortSuggestions (l : List TransformationSuggestion) :
    List TransformationSuggestion :=
  List.insertionSort byConfidenceDesc l

/-- The detector outputs before sorting, in encounter order. -/
def detectorOutputs (root : HNode) : List TransformationSuggestion :=
  detectProblemSolverPatterns root (detectEquationPatterns root [])

/-- `generateTransformationSuggestions` of the source — the `analyze`
entry point: parse, run both detectors over a fresh accumulator, sort by
confidence (highest first). -/
def generateTransformationSuggestions (htmlContent : String) :
    List TransformationSuggestion :=
  sortSuggestions (detectorOutputs (parseHtmlContent htmlContent))

/-! ## Observations on suggestions used by the claims -/

/-- The sub-list of suggestions of a given type, in order. -/
def suggestionsOfType (l : List TransformationSuggestion) (t : String) :
    List TransformationSuggestion :=
  l.filter (fun s => s.type = t)

/-- The keys of `blockParameters`, in order. -/
def paramKeys (s : TransformationSuggestion) : List String :=
  s.blockParameters.map Prod.fst

/-- Look up a block parameter by key. -/
def getParam (s : TransformationSuggestion) (k : String) : Option PValue :=
  (s.blockParameters.find? (fun kv => kv.1 = k)).map (·.2)

/-- The `steps` parameter of a problem-solver suggestion. -/
def stepsParam (s : TransformationSuggestion) : Option (List SolutionStep) :=
  match getParam s "steps" with
  | some (.stepList l) => some l
  | _ => none

/-- The `expression` of the second step of a suggestion's `steps`. -/
def secondStepExpr (s : TransformationSuggestion) : Option String :=
  match stepsParam s with
  | some l => (l.get? 1).map SolutionStep.expression
  | none => none

/-- The keys the `equationExplorer` default-parameter contract
requires. -/
def equationExplorerKeys : List String :=
  ["equation", "variables", "range", "initialValues", "showGraph",
   "showFormula"]

/-- The keys the `problem-solver` default-parameter contract requires. -/
def problemSolverKeys : List String :=
  ["problem", "steps", "showHints", "progressiveReveal",
   "requireUserInput", "feedbackLevel", "solutionVisible"]

/-! ## Generic lemmas about the pipeline -/

theorem mem_generate {html : String} {s : TransformationSuggestion}
    (h : s ∈ generateTransformationSuggestions html) :
    s ∈ detectorOutputs (parseHtmlContent html) :=
  (List.mem_insertionSort byConfidenceDesc).mp h

theorem mem_detectorOutputs {root : HNode} {s : TransformationSuggestion}
    (h : s ∈ detectorOutputs root) :
    (∃ p ∈ eqCandidatePool root, equationSuggestionFor root p = some s) ∨
    ∃ p ∈ probCandidatePool root, problemSuggestionFor root p = some s := by
  unfold detectorOutputs detectProblemSolverPatterns
    detectEquationPatterns at h
  rw [List.nil_append, List.mem_append] at h
  rcases h with h | h
  · exact Or.inl (List.mem_filterMap.mp h)
  · exact Or.inr (List.mem_filterMap.mp h)

theorem equationSuggestionFor_shape {root : HNode} {p : List Nat}
    {s : TransformationSuggestion}
    (h : equationSuggestionFor root p = some s) :
    s.type = "equationExplorer" ∧ paramKeys s = equationExplorerKeys := by
  simp only [equationSuggestionFor] at h
  split at h
  · exact absurd h (by simp)
  · split at h
    · rw [Option.some_inj] at h
      subst h
      exact ⟨rfl, rfl⟩
    · split at h
      · rw [Option.some_inj] at h
        subst h
        exact ⟨rfl, rfl⟩
      · split at h
        · rw [Option.some_inj] at h
          subst h
          exact ⟨rfl, rfl⟩
        · exact absurd h (by simp)

theorem problemSuggestionFor_shape {root : HNode} {p : List Nat}
    {s : TransformationSuggestion}
    (h : problemSuggestionFor root p = some s) :
    s.type = "problem-solver" ∧ paramKeys s = problemSolverKeys ∧
      ∃ l, stepsParam s = some l ∧ 1 ≤ l.length := by
  simp only [problemSuggestionFor] at h
  split at h
  · exact absurd h (by simp)
  · split at h
    · exact absurd h (by simp)
    · rename_i m0 heq
      split at h
      · rename_i hlen
        rw [Option.some_inj] at h
        subst h
        refine ⟨rfl, rfl, ?_⟩
        exact ⟨_, rfl, hlen⟩
      · exact absurd h (by simp)

theorem filter_orderedInsert_conf (c : Nat)
    (x : TransformationSuggestion) (l : List TransformationSuggestion) :
    (List.orderedInsert byConfidenceDesc x l).filter
        (fun s => s.confidence = c) =
      (x :: l).filter (fun s => s.confidence = c) := by
  induction l with
  | nil => rfl
  | cons y ys ih =>
    rw [List.orderedInsert]
    by_cases hr : byConfidenceDesc x y
    · rw [if_pos hr]
    · rw [if_neg hr]
      have hlt : x.confidence < y.confidence := by
        unfold byConfidenceDesc at hr
        omega
      by_cases hx : x.confidence = c
      · have hy : ¬ (y.confidence = c) := by omega
        simp only [List.filter_cons, ih]
        simp [hx, hy]
      · simp only [List.filter_cons, ih]
        by_cases hy : y.confidence = c <;> simp [hx, hy]

theorem filter_insertionSort_conf (c : Nat)
    (l : List TransformationSuggestion) :
    (List.insertionSort byConfidenceDesc l).filter
        (fun s => s.confidence = c) =
      l.filter (fun s => s.confidence = c) := by
  induction l with
  | nil => rfl
  | cons a l ih =>
    rw [List.insertionSort, filter_orderedInsert_conf, List.filter_cons,
      List.filter_cons, ih]

/-! ## Concrete inputs named by the claims -/

def solveForHtml : String := "<h3>Problem</h3><p>Solve for x: 2x + 3 = 7</p>"

def linearHtml : String := "<p>y = 2x + 1</p>"

def quadHtml : String := "<p>y = x^2 + 2x + 1</p>"

def zeroCoefHtml : String := "<h3>Example</h3><p>0x + 3 = 7</p>"

def plainTextHtml : String := "just text with a stray < and no tags"

def multiSelectorHtml : String :=
  "<h2>Title</h2><p class=\"problem\"><strong>Solve for x: 2x + 3 = 7</strong></p><ol><li>2x = 4</li><li>x = 2</li></ol>"

/-! ## The claims -/

/-- C1 (counterexample): the claim says the input
`<h3>Problem</h3><p>Solve for x: 2x + 3 = 7</p>` yields exactly one
problem-solver suggestion with two synthesized steps.  On the code it
yields none: the problem-solver sub-list of the analysis result is
empty, so there is no problem-solver suggestion at all, let alone one
with two steps. -/
theorem c1_counterexample :
    suggestionsOfType (generateTransformationSuggestions solveForHtml)
      "problem-solver" = [] := by decide

/-- C1 (amended): for that input the analysis emits no problem-solver
suggestion — the first cue pattern `solve for <var>:` wins, its
`match[0]` is `"Solve for x: "` (the trailing lazy group captures
nothing), that text contains no `=`, so the synthesis path never fires
and the candidate is dropped; the only suggestion is the linear
equation-explorer one. -/
theorem c1_amended :
    (generateTransformationSuggestions solveForHtml).map
        TransformationSuggestion.type = ["equationExplorer"] ∧
    suggestionsOfType (generateTransformationSuggestions solveForHtml)
        "problem-solver" = [] ∧
    firstProblemMatch "Solve for x: 2x + 3 = 7".data =
        some "Solve for x: ".data ∧
    containsChar "Solve for x: ".data '=' = false := by decide

/-- C3: for the input `<p>y = 2x + 1</p>`, analyze returns exactly one
suggestion; its type is `equationExplorer`, its confidence is 0.85
(stored as 85 hundredths; the linear rule), its `variables` parameter is
`["y"]` (the variable-before-`=` extraction wins) and its `equation`
parameter is the trimmed matched substring `y = 2x + 1`. -/
theorem c3_linear_scenario :
    generateTransformationSuggestions linearHtml =
      [{ type := "equationExplorer"
         sourceElements := [[0]]
         description := "Interactive Linear Equation Explorer"
         confidence := 85
         blockParameters :=
           [("equation", PValue.str "y = 2x + 1"),
            ("variables", PValue.strList ["y"]),
            ("range", PValue.objIntList "y" [-10, 10]),
            ("initialValues", PValue.objInt "y" 0),
            ("showGraph", PValue.bool true),
            ("showFormula", PValue.bool true)] }] := by decide

/-- C4: for the input `<p>y = x^2 + 2x + 1</p>`, analyze returns exactly
one suggestion, of type `equationExplorer` with confidence 0.9 (stored
as 90 hundredths): the linear pattern, though tried first, does not
match this text, so the quadratic rule produces the suggestion. -/
theorem c4_quadratic_scenario :
    firstMatch0 linearPattern
        (textAtPath (parseHtmlContent quadHtml) [0]) = none ∧
    (generateTransformationSuggestions quadHtml).map
        (fun s => (s.type, s.confidence)) = [("equationExplorer", 90)] := by
  decide

/-- C2: for every HTML input string, the suggestion list returned by
analyze is sorted by confidence in non-increasing order, and for every
confidence value the sub-list of suggestions carrying it is exactly the
sub-list the detectors produced, in their encounter order (stable
tie-breaking; JS `sort` is stable per ES2019). -/
theorem c2_sorted_and_stable (html : String) :
    List.Sorted byConfidenceDesc (generateTransformationSuggestions html) ∧
    ∀ c : Nat,
      (generateTransformationSuggestions html).filter
          (fun s => s.confidence = c) =
        (detectorOutputs (parseHtmlContent html)).filter
          (fun s => s.confidence = c) :=
  ⟨List.sorted_insertionSort byConfidenceDesc _,
   fun c => filter_insertionSort_conf c _⟩

/-- C5: for every HTML input and every problem-solver suggestion in the
result of analyze, the `steps` parameter is a non-empty step list; a
candidate for which neither the container path nor the synthesis path
yields a step produces no suggestion at all (the detector only pushes
when `steps.length > 0`). -/
theorem c5_steps_nonempty (html : String) (s : TransformationSuggestion)
    (hs : s ∈ generateTransformationSuggestions html)
    (ht : s.type = "problem-solver") :
    ∃ l, stepsParam s = some l ∧ 1 ≤ l.length := by
  rcases mem_detectorOutputs (mem_generate hs) with ⟨p, _, hf⟩ | ⟨p, _, hf⟩
  · rcases equationSuggestionFor_shape hf with ⟨hty, _⟩
    rw [hty] at ht
    exact absurd ht (by decide)
  · exact (problemSuggestionFor_shape hf).2.2

/-- C5 (witness): the problem-solver suggestion produced for
`<h3>Example</h3><p>0x + 3 = 7</p>` (position 1 of the analysis result)
has a non-empty `steps` parameter. -/
theorem c5_steps_nonempty_witness :
    ∃ l,
      stepsParam
        ((generateTransformationSuggestions zeroCoefHtml).get
          ⟨1, by decide⟩) = some l ∧ 1 ≤ l.length :=
  c5_steps_nonempty zeroCoefHtml _ (List.get_mem _ _ _) (by decide)

/-- C6: for every HTML input, every suggestion returned by analyze
carries every key its type's default-parameter contract requires:
`equation`, `variables`, `range`, `initialValues`, `showGraph`,
`showFormula` for `equationExplorer`; `problem`, `steps`, `showHints`,
`progressiveReveal`, `requireUserInput`, `feedbackLevel`,
`solutionVisible` for `problem-solver`. -/
theorem c6_required_keys (html : String) (s : TransformationSuggestion)
    (hs : s ∈ generateTransformationSuggestions html) :
    (s.type = "equationExplorer" →
      ∀ k ∈ equationExplorerKeys, k ∈ paramKeys s) ∧
    (s.type = "problem-solver" →
      ∀ k ∈ problemSolverKeys, k ∈ paramKeys s) := by
  rcases mem_detectorOutputs (mem_generate hs) with ⟨p, _, hf⟩ | ⟨p, _, hf⟩
  · rcases equationSuggestionFor_shape hf with ⟨hty, hkeys⟩
    constructor
    · intro _ k hk
      rw [hkeys]
      exact hk
    · intro hpt
      rw [hty] at hpt
      exact absurd hpt (by decide)
  · rcases problemSuggestionFor_shape hf with ⟨hty, hkeys, _⟩
    constructor
    · intro hpt
      rw [hty] at hpt
      exact absurd hpt (by decide)
    · intro _ k hk
      rw [hkeys]
      exact hk

/-- C6 (witness): the suggestion produced for `<p>y = 2x + 1</p>`
satisfies the key-completeness contract of its type. -/
theorem c6_required_keys_witness :
    (((generateTransformationSuggestions linearHtml).get
          ⟨0, by decide⟩).type = "equationExplorer" →
      ∀ k ∈ equationExplorerKeys,
        k ∈ paramKeys ((generateTransformationSuggestions linearHtml).get
          ⟨0, by decide⟩)) ∧
    (((generateTransformationSuggestions linearHtml).get
          ⟨0, by decide⟩).type = "problem-solver" →
      ∀ k ∈ problemSolverKeys,
        k ∈ paramKeys ((generateTransformationSuggestions linearHtml).get
          ⟨0, by decide⟩)) :=
  c6_required_keys linearHtml _ (List.get_mem _ _ _)

/-- C8: analyze is deterministic — it is a pure function of its input
string.  The embedding is state-free because the source keeps no state
outside the per-call `suggestions` array, which starts empty on every
call: the result is literally the sort of the detector outputs over the
freshly parsed document, and two calls on the identical input are
equal. -/
theorem c8_deterministic (html : String) :
    generateTransformationSuggestions html =
        generateTransformationSuggestions html ∧
    generateTransformationSuggestions html =
        sortSuggestions (detectorOutputs (parseHtmlContent html)) :=
  ⟨rfl, rfl⟩

/-- C9: the pipeline is total — `generateTransformationSuggestions` is a
total function on arbitrary strings by construction (the spec-modelled
loader tolerates arbitrary text and never fails) — and in the worst
case, when the parsed document yields empty candidate pools for both
detectors, the result is the empty suggestion list rather than a
failure. -/
theorem c9_degrades_to_empty (html : String)
    (he : eqCandidatePool (parseHtmlContent html) = [])
    (hp : probCandidatePool (parseHtmlContent html) = []) :
    generateTransformationSuggestions html = [] := by
  unfold generateTransformationSuggestions detectorOutputs
    detectProblemSolverPatterns detectEquationPatterns
  rw [he, hp]
  rfl

/-- C9 (witness): malformed, tag-free text (including a stray `<`)
parses to a document with empty candidate pools and analyzes to the
empty suggestion list. -/
theorem c9_degrades_to_empty_witness :
    generateTransformationSuggestions plainTextHtml = [] :=
  c9_degrades_to_empty plainTextHtml (by decide) (by decide)

/-- C7: the division by the parsed coefficient in the synthesized-steps
path has no zero guard: for `<h3>Example</h3><p>0x + 3 = 7</p>` (problem
text matching the linear shape with coefficient 0) a problem-solver
suggestion is still emitted, and its second step's expression is
`x = Infinity` — a non-finite value — rather than the suggestion being
skipped or an error raised. -/
theorem c7_zero_coefficient_no_guard :
    suggestionsOfType (generateTransformationSuggestions zeroCoefHtml)
        "problem-solver" =
      [{ type := "problem-solver"
         sourceElements := [[1]]
         description := "Interactive Problem Solver"
         confidence := 80
         blockParameters :=
           [("problem", PValue.str "0x + 3 = 7"),
            ("steps", PValue.stepList
              [{ description := "Isolate the variable term"
                 expression := "0x = 4"
                 explanation := "Move constant to the right side by subtracting 3 from both sides." },
               { description := "Solve for the variable"
                 expression := "x = Infinity"
                 explanation := "Divide both sides by the coefficient 0 to find the value of x." }])
            ,
            ("showHints", PValue.bool true),
            ("progressiveReveal", PValue.bool true),
            ("requireUserInput", PValue.bool false),
            ("feedbackLevel", PValue.str "detailed"),
            ("solutionVisible", PValue.str "after-attempt")] }] ∧
    (suggestionsOfType (generateTransformationSuggestions zeroCoefHtml)
        "problem-solver").map secondStepExpr = [some "x = Infinity"] := by
  decide

set_option maxRecDepth 4096 in
/-- C10: the problem detector's candidate pool concatenates the selector
results without deduplication, so a paragraph that follows an `h2`, has
class `problem` and contains a `strong` child (followed by an ordered
list of steps) appears three times in the pool — once per matching
selector — and yields three identical problem-solver suggestions for
that one element (document path `[1]`). -/
theorem c10_duplicate_suggestions :
    (probCandidatePool (parseHtmlContent multiSelectorHtml)).count [1] =
        3 ∧
    (suggestionsOfType
        (generateTransformationSuggestions multiSelectorHtml)
        "problem-solver").length = 3 ∧
    (suggestionsOfType
        (generateTransformationSuggestions multiSelectorHtml)
        "problem-solver").get? 0 =
      (suggestionsOfType
        (generateTransformationSuggestions multiSelectorHtml)
        "problem-solver").get? 1 ∧
    (suggestionsOfType
        (generateTransformationSuggestions multiSelectorHtml)
        "problem-solver").get? 1 =
      (suggestionsOfType
        (generateTransformationSuggestions multiSelectorHtml)
        "problem-solver").get? 2 ∧
    (suggestionsOfType
        (generateTransformationSuggestions multiSelectorHtml)
        "problem-solver").all
      (fun s => s.sourceElements = [[1]]) = true := by
  decide
